import Mathlib

/-!
# Verification of the Lumina-Note CEF tab/navigation state managers

Shallow embedding of `src-tauri/src/cef/mod.rs` (the `CefInstancePool` and
`CefBrowserManager` state managers) and of the validating command layer in
`src-tauri/src/cef/commands.rs`.

Modelling conventions:

* Rust `HashMap<String, CefBrowserInfo>` (the browser manager's map) is
  embedded as the function `String → Option CefBrowserInfo`; `insert`,
  `remove` and `get` are the evident operations on such functions.
* Rust `HashMap<String, CefInstance>` (the instance pool) is embedded as a
  `List CefInstance` keyed by the `tab_id` field, with the key-uniqueness
  that the `HashMap` provides expressed as the predicate `PoolKeysNodup`.
  `get_mut` on a key mutates the unique entry with that key, which the list
  model renders as a map touching exactly the entries whose `tab_id`
  matches.  Iteration order of a `HashMap` is unspecified and no operation
  here depends on it.
* `SystemTime::now()` is a parameter `now : Nat` (milliseconds since epoch)
  supplied by the caller of each operation that reads the clock.
* The `f64` coordinate fields (`x`, `y`, `width`, `height`) are embedded as
  `Rat`: the code only stores them and compares them against `0.0`, and on
  the non-NaN floats actually denoted by such fields the order structure
  agrees with the rational order.  (A NaN width is not "non-positive", so
  this does not affect any claim about non-positive dimensions.)
* Every manager operation returns `Except AppErr _` exactly as the Rust
  functions return `Result<_, AppError>`.  The only error the manager
  bodies can produce is a poisoned-lock failure from `Mutex::lock`; in the
  sequential embedding lock acquisition always succeeds, so the bodies
  produce `.ok` — faithfully mirroring the source, where every return path
  after a successful lock is `Ok`.
* `usize` subtraction (`history.len() - 1`) is embedded as `Nat`
  subtraction.  The two differ only when `history` is empty (underflow),
  and the history of a registered tab is seeded non-empty and never
  emptied, so no reachable state makes the difference observable.
-/

/-- `AppError` from `src/error.rs` as used by this module: every error the
CEF module constructs is the `InvalidPath` variant carrying a message. -/
inductive AppErr where
  | invalidPath : String → AppErr
  deriving DecidableEq, Repr

/-- `NavigationHistoryEntry` from `cef/mod.rs`. -/
structure NavigationHistoryEntry where
  url : String
  title : String
  timestamp : Nat
  deriving DecidableEq, Repr

/-- `CefBrowserInfo` from `cef/mod.rs`. -/
structure CefBrowserInfo where
  tab_id : String
  url : String
  title : String
  is_loading : Bool
  can_go_back : Bool
  can_go_forward : Bool
  history : List NavigationHistoryEntry
  history_index : Nat
  deriving DecidableEq, Repr

/-- `CefInstance` from `cef/mod.rs` (coordinates as `Rat`, see header). -/
structure CefInstance where
  tab_id : String
  is_visible : Bool
  x : Rat
  y : Rat
  width : Rat
  height : Rat
  deriving DecidableEq, Repr

/-- The browser manager's `HashMap<String, CefBrowserInfo>` as a lookup
function. -/
abbrev Browsers := String → Option CefBrowserInfo

/-- The empty map (state of a fresh `CefBrowserManager::new()`). -/
def Browsers.empty : Browsers := fun _ => none

/-- `HashMap::insert`: replace-or-add the binding for `id`. -/
def Browsers.insert (m : Browsers) (id : String) (b : CefBrowserInfo) :
    Browsers := fun k => if k = id then some b else m k

/-- `HashMap::remove`. -/
def Browsers.remove (m : Browsers) (id : String) : Browsers :=
  fun k => if k = id then none else m k

/-- Body of the `if let Some(browser)` block of
`CefBrowserManager::on_url_change` (`cef/mod.rs:266-286`): truncate forward
history when the cursor is not at the end, push the fresh entry, then
update `url`, `history_index` and the two flags. -/
def CefBrowserInfo.applyUrlChange (b : CefBrowserInfo) (url : String)
    (now : Nat) : CefBrowserInfo :=
  let history :=
    if b.history_index < b.history.length - 1 then
      b.history.take (b.history_index + 1)
    else b.history
  let history := history ++ [⟨url, "", now⟩]
  { b with
    url := url
    history := history
    history_index := history.length - 1
    can_go_back := decide (0 < history.length - 1)
    can_go_forward := false }

/-- Body of the `if let Some(browser)` block of
`CefBrowserManager::on_title_change` (`cef/mod.rs:296-303`). -/
def CefBrowserInfo.applyTitleChange (b : CefBrowserInfo) (title : String) :
    CefBrowserInfo :=
  let b := { b with title := title }
  match b.history[b.history_index]? with
  | some entry =>
      { b with history := b.history.set b.history_index { entry with title := title } }
  | none => b

/-- Body of the `if let Some(browser)` block of
`CefBrowserManager::on_loading_state_change` (`cef/mod.rs:313-315`). -/
def CefBrowserInfo.applyLoadingChange (b : CefBrowserInfo)
    (is_loading : Bool) : CefBrowserInfo :=
  { b with is_loading := is_loading }

/-- Body of the `if let Some(browser)` block of
`CefBrowserManager::on_go_back` (`cef/mod.rs:325-336`): when the cursor is
positive, decrement it, recompute the flags, and read the entry now at the
cursor to produce the returned URL. -/
def CefBrowserInfo.applyGoBack (b : CefBrowserInfo) :
    Option String × CefBrowserInfo :=
  if 0 < b.history_index then
    let b := { b with history_index := b.history_index - 1 }
    let b := { b with
      can_go_back := decide (0 < b.history_index)
      can_go_forward := true }
    match b.history[b.history_index]? with
    | some entry => (some entry.url, { b with url := entry.url })
    | none => (none, b)
  else (none, b)

/-- Body of the `if let Some(browser)` block of
`CefBrowserManager::on_go_forward` (`cef/mod.rs:346-357`). -/
def CefBrowserInfo.applyGoForward (b : CefBrowserInfo) :
    Option String × CefBrowserInfo :=
  if b.history_index < b.history.length - 1 then
    let b := { b with history_index := b.history_index + 1 }
    let b := { b with
      can_go_forward := decide (b.history_index < b.history.length - 1)
      can_go_back := true }
    match b.history[b.history_index]? with
    | some entry => (some entry.url, { b with url := entry.url })
    | none => (none, b)
  else (none, b)

namespace CefBrowserManager

/-- `CefBrowserManager::register_browser` (`cef/mod.rs:198-223`): insert a
freshly seeded state (one history entry, cursor 0, loading, both flags
false), replacing any existing binding for `tab_id`. -/
def register_browser (m : Browsers) (tab_id url : String) (now : Nat) :
    Except AppErr Browsers :=
  .ok (m.insert tab_id
    { tab_id := tab_id
      url := url
      title := ""
      is_loading := true
      can_go_back := false
      can_go_forward := false
      history := [⟨url, "", now⟩]
      history_index := 0 })

/-- `CefBrowserManager::unregister_browser` (`cef/mod.rs:226-232`). -/
def unregister_browser (m : Browsers) (tab_id : String) :
    Except AppErr Browsers :=
  .ok (m.remove tab_id)

/-- `CefBrowserManager::get_browser` (`cef/mod.rs:235-240`). -/
def get_browser (m : Browsers) (tab_id : String) :
    Except AppErr (Option CefBrowserInfo) :=
  .ok (m tab_id)

/-- `CefBrowserManager::on_url_change` (`cef/mod.rs:262-289`): mutate the
looked-up browser via `applyUrlChange`; no-op when the tab is unknown. -/
def on_url_change (m : Browsers) (tab_id url : String) (now : Nat) :
    Except AppErr Browsers :=
  .ok (match m tab_id with
    | some b => m.insert tab_id (b.applyUrlChange url now)
    | none => m)

/-- `CefBrowserManager::on_title_change` (`cef/mod.rs:292-306`). -/
def on_title_change (m : Browsers) (tab_id title : String) :
    Except AppErr Browsers :=
  .ok (match m tab_id with
    | some b => m.insert tab_id (b.applyTitleChange title)
    | none => m)

/-- `CefBrowserManager::on_loading_state_change` (`cef/mod.rs:309-318`). -/
def on_loading_state_change (m : Browsers) (tab_id : String)
    (is_loading : Bool) : Except AppErr Browsers :=
  .ok (match m tab_id with
    | some b => m.insert tab_id (b.applyLoadingChange is_loading)
    | none => m)

/-- `CefBrowserManager::on_go_back` (`cef/mod.rs:321-339`): returns the URL
navigated to (or `none` at the boundary / for an unknown tab) together with
the updated map. -/
def on_go_back (m : Browsers) (tab_id : String) :
    Except AppErr (Option String × Browsers) :=
  .ok (match m tab_id with
    | some b => (b.applyGoBack.1, m.insert tab_id b.applyGoBack.2)
    | none => (none, m))

/-- `CefBrowserManager::on_go_forward` (`cef/mod.rs:342-360`). -/
def on_go_forward (m : Browsers) (tab_id : String) :
    Except AppErr (Option String × Browsers) :=
  .ok (match m tab_id with
    | some b => (b.applyGoForward.1, m.insert tab_id b.applyGoForward.2)
    | none => (none, m))

end CefBrowserManager

namespace CefInstancePool

/-- The pool's entries; a fresh `CefInstancePool::new()` is `[]`. -/
abbrev Pool := List CefInstance

/-- Key uniqueness guaranteed by the backing `HashMap`. -/
def PoolKeysNodup (p : Pool) : Prop := (p.map (·.tab_id)).Nodup

/-- `HashMap::get` on the pool. -/
def findInst (p : Pool) (tab_id : String) : Option CefInstance :=
  p.find? (fun i => i.tab_id == tab_id)

/-- `CefInstancePool::register_instance` (`cef/mod.rs:39-60`): `insert`
replaces the value of an existing key and otherwise adds a new binding;
the record is inserted with `is_visible = true`. -/
def register_instance (p : Pool) (tab_id : String) (x y width height : Rat) :
    Except AppErr Pool :=
  let inst : CefInstance :=
    { tab_id := tab_id, is_visible := true, x := x, y := y
      width := width, height := height }
  .ok (if p.any (fun i => i.tab_id == tab_id) then
        p.map (fun i => if i.tab_id == tab_id then inst else i)
      else p ++ [inst])

/-- `CefInstancePool::unregister_instance` (`cef/mod.rs:63-69`). -/
def unregister_instance (p : Pool) (tab_id : String) : Except AppErr Pool :=
  .ok (p.filter (fun i => !(i.tab_id == tab_id)))

/-- `CefInstancePool::get_instance` (`cef/mod.rs:72-77`). -/
def get_instance (p : Pool) (tab_id : String) :
    Except AppErr (Option CefInstance) :=
  .ok (findInst p tab_id)

/-- `CefInstancePool::show_instance` (`cef/mod.rs:80-95`): first set
`is_visible := false` on every record, then set it to `true` on the record
for `tab_id` when present. -/
def show_instance (p : Pool) (tab_id : String) : Except AppErr Pool :=
  let hidden := p.map (fun i => { i with is_visible := false })
  .ok (hidden.map (fun i =>
    if i.tab_id == tab_id then { i with is_visible := true } else i))

/-- `CefInstancePool::hide_instance` (`cef/mod.rs:98-107`). -/
def hide_instance (p : Pool) (tab_id : String) : Except AppErr Pool :=
  .ok (p.map (fun i =>
    if i.tab_id == tab_id then { i with is_visible := false } else i))

/-- `CefInstancePool::update_instance_bounds` (`cef/mod.rs:110-129`):
overwrite the geometry of the record for `tab_id`; no-op when absent. -/
def update_instance_bounds (p : Pool) (tab_id : String)
    (x y width height : Rat) : Except AppErr Pool :=
  .ok (p.map (fun i =>
    if i.tab_id == tab_id then
      { i with x := x, y := y, width := width, height := height }
    else i))

/-- `CefInstancePool::get_all_instances` (`cef/mod.rs:132-137`). -/
def get_all_instances (p : Pool) : Except AppErr (List CefInstance) :=
  .ok p

/-- `CefInstancePool::get_visible_instance_count` (`cef/mod.rs:140-145`). -/
def get_visible_instance_count (p : Pool) : Except AppErr Nat :=
  .ok (p.filter (fun i => i.is_visible)).length

/-- `CefInstancePool::get_instance_count` (`cef/mod.rs:148-153`). -/
def get_instance_count (p : Pool) : Except AppErr Nat :=
  .ok p.length

end CefInstancePool

/-- The events `app.emit` publishes from the three validated commands
modelled here (`cef/commands.rs`). -/
inductive CefEvent where
  | browserCreated (tab_id url : String)
  | navigationStarted (tab_id url : String)
  | boundsUpdated (tab_id : String) (x y width height : Rat) (timestamp : Nat)
  deriving DecidableEq, Repr

namespace CefCommands

/-- `create_cef_browser` (`cef/commands.rs:20-59`): validates URL, tab id
and dimensions in that order before emitting `cef:browser-created`.  The
command body never touches either manager's state (browser creation is a
stub), so the result is the list of emitted events plus the command's
`Result`; a rejected call emits nothing. -/
def create_cef_browser (tab_id url : String) (x y width height : Rat) :
    List CefEvent × Except AppErr Unit :=
  if url = "" then
    ([], .error (.invalidPath "URL cannot be empty"))
  else if tab_id = "" then
    ([], .error (.invalidPath "tab_id cannot be empty"))
  else if width ≤ 0 ∨ height ≤ 0 then
    ([], .error (.invalidPath "Width and height must be positive"))
  else
    ([.browserCreated tab_id url], .ok ())

/-- `navigate_cef` (`cef/commands.rs:68-93`): validates tab id then URL
before emitting `cef:navigation-started`; touches no manager state. -/
def navigate_cef (tab_id url : String) : List CefEvent × Except AppErr Unit :=
  if tab_id = "" then
    ([], .error (.invalidPath "tab_id cannot be empty"))
  else if url = "" then
    ([], .error (.invalidPath "URL cannot be empty"))
  else
    ([.navigationStarted tab_id url], .ok ())

/-- `cef_update_bounds` (`cef/commands.rs:455-487`): validates tab id and
dimensions before emitting `cef:bounds-updated`; touches no manager
state. -/
def cef_update_bounds (tab_id : String) (x y width height : Rat)
    (now : Nat) : List CefEvent × Except AppErr Unit :=
  if tab_id = "" then
    ([], .error (.invalidPath "tab_id cannot be empty"))
  else if width ≤ 0 ∨ height ≤ 0 then
    ([], .error (.invalidPath "Width and height must be positive"))
  else
    ([.boundsUpdated tab_id x y width height now], .ok ())

end CefCommands

/-- The per-tab invariants of §3 of the design: non-empty history, in-range
cursor, flags derived from the cursor, and `currentUrl` equal to the URL of
the entry at the cursor. -/
abbrev BrowserWf (b : CefBrowserInfo) : Prop :=
  b.history ≠ [] ∧
  b.history_index < b.history.length ∧
  b.can_go_back = decide (0 < b.history_index) ∧
  b.can_go_forward = decide (b.history_index < b.history.length - 1) ∧
  (b.history[b.history_index]?).map (·.url) = some b.url

/-- Every registered tab satisfies the per-tab invariants. -/
def ManagerWf (m : Browsers) : Prop :=
  ∀ id b, m id = some b → BrowserWf b


/-- The manager state after a `goBack` call for `tab_id` (the map in the
`Ok` payload of `on_go_back`; the error branch cannot occur in the
sequential embedding). -/
def goBackState (m : Browsers) (tab_id : String) : Browsers :=
  match CefBrowserManager.on_go_back m tab_id with
  | .ok p => p.2
  | .error _ => m

/-- The manager state after a `goForward` call for `tab_id`. -/
def goForwardState (m : Browsers) (tab_id : String) : Browsers :=
  match CefBrowserManager.on_go_forward m tab_id with
  | .ok p => p.2
  | .error _ => m

/-- The manager state after `k` successive `goBack` calls for `tab_id`. -/
def iterBack (tab_id : String) : Nat → Browsers → Browsers
  | 0, m => m
  | k + 1, m => goBackState (iterBack tab_id k m) tab_id

/-- The manager state after `k` successive `goForward` calls. -/
def iterForward (tab_id : String) : Nat → Browsers → Browsers
  | 0, m => m
  | k + 1, m => goForwardState (iterForward tab_id k m) tab_id

/-- The manager state after an arbitrary interleaving of `goBack` (`true`)
and `goForward` (`false`) calls for `tab_id`. -/
def navMoves (tab_id : String) (moves : List Bool) (m : Browsers) :
    Browsers :=
  moves.foldl
    (fun s mv => if mv then goBackState s tab_id else goForwardState s tab_id)
    m

/-- A single tab's state after `k` successive `goBack` steps. -/
def backSteps : Nat → CefBrowserInfo → CefBrowserInfo
  | 0, b => b
  | k + 1, b => (backSteps k b).applyGoBack.2

/-- A single tab's state after `k` successive `goForward` steps. -/
def fwdSteps : Nat → CefBrowserInfo → CefBrowserInfo
  | 0, b => b
  | k + 1, b => (fwdSteps k b).applyGoForward.2

section MapLemmas

theorem Browsers.insert_self (m : Browsers) (id : String)
    (b : CefBrowserInfo) : (m.insert id b) id = some b := by
  simp [Browsers.insert]

theorem Browsers.insert_ne (m : Browsers) (id k : String)
    (b : CefBrowserInfo) (h : k ≠ id) : (m.insert id b) k = m k := by
  simp [Browsers.insert, h]

theorem Browsers.insert_eq_self (m : Browsers) (id : String)
    (b : CefBrowserInfo) (h : m id = some b) : m.insert id b = m := by
  funext k
  by_cases hk : k = id
  · subst hk; simp [Browsers.insert, h]
  · simp [Browsers.insert, hk]

end MapLemmas


/-- C10: registering a `tabId` that is already registered returns no error:
`register_browser` always returns `Ok` and `HashMap::insert` silently
replaces the existing state with a freshly seeded one (single history entry
holding the new url with empty title, cursor 0, `is_loading = true`, both
navigation flags false), discarding the previous history entirely. -/
theorem c10_register_replaces (m : Browsers) (tab_id url : String)
    (now : Nat) (old : CefBrowserInfo) (hreg : m tab_id = some old) :
    ∃ m', CefBrowserManager.register_browser m tab_id url now = Except.ok m' ∧
      m' tab_id = some
        { tab_id := tab_id, url := url, title := "", is_loading := true,
          can_go_back := false, can_go_forward := false,
          history := [⟨url, "", now⟩], history_index := 0 } :=
  ⟨_, rfl, Browsers.insert_self m tab_id _⟩

/-- Witness for C10 at a concrete already-registered tab. -/
theorem c10_register_replaces_witness :
    ∃ m', CefBrowserManager.register_browser
        (Browsers.empty.insert "t1"
          { tab_id := "t1", url := "https://a.test", title := "T",
            is_loading := false, can_go_back := true, can_go_forward := false,
            history := [⟨"https://a.test", "", 0⟩, ⟨"https://b.test", "", 1⟩],
            history_index := 1 })
        "t1" "https://c.test" 7 = Except.ok m' ∧
      m' "t1" = some
        { tab_id := "t1", url := "https://c.test", title := "",
          is_loading := true, can_go_back := false, can_go_forward := false,
          history := [⟨"https://c.test", "", 7⟩], history_index := 0 } :=
  c10_register_replaces _ "t1" "https://c.test" 7 _ rfl

/-- C6: for a registered tab satisfying the invariants, `on_go_back` at
cursor 0 and `on_go_forward` at the last cursor each return `Ok(None)` (no
URL, not an error) and leave the whole manager state — hence every field of
the tab's state — unchanged. -/
theorem c6_boundary_noops (m : Browsers) (id : String) (b : CefBrowserInfo)
    (hb : m id = some b) (hwf : BrowserWf b) :
    (b.history_index = 0 →
      CefBrowserManager.on_go_back m id = Except.ok (none, m)) ∧
    (b.history_index = b.history.length - 1 →
      CefBrowserManager.on_go_forward m id = Except.ok (none, m)) := by
  constructor
  · intro h0
    have hstep : b.applyGoBack = (none, b) := by
      unfold CefBrowserInfo.applyGoBack
      simp [h0]
    unfold CefBrowserManager.on_go_back
    rw [hb]
    simp only [hstep]
    rw [Browsers.insert_eq_self m id b hb]
  · intro hlast
    have hstep : b.applyGoForward = (none, b) := by
      unfold CefBrowserInfo.applyGoForward
      rw [hlast]
      simp
    unfold CefBrowserManager.on_go_forward
    rw [hb]
    simp only [hstep]
    rw [Browsers.insert_eq_self m id b hb]

/-- Witness for C6: a two-entry tab exercises both boundaries (cursor 0 via
one state, last cursor via another). -/
theorem c6_boundary_noops_witness :
    (CefBrowserManager.on_go_back
      (Browsers.empty.insert "t1"
        { tab_id := "t1", url := "https://a.test", title := "",
          is_loading := true, can_go_back := false, can_go_forward := true,
          history := [⟨"https://a.test", "", 0⟩, ⟨"https://b.test", "", 1⟩],
          history_index := 0 }) "t1"
      = Except.ok (none,
        Browsers.empty.insert "t1"
          { tab_id := "t1", url := "https://a.test", title := "",
            is_loading := true, can_go_back := false, can_go_forward := true,
            history := [⟨"https://a.test", "", 0⟩, ⟨"https://b.test", "", 1⟩],
            history_index := 0 })) ∧
    (CefBrowserManager.on_go_forward
      (Browsers.empty.insert "t2"
        { tab_id := "t2", url := "https://b.test", title := "",
          is_loading := false, can_go_back := true, can_go_forward := false,
          history := [⟨"https://a.test", "", 0⟩, ⟨"https://b.test", "", 1⟩],
          history_index := 1 }) "t2"
      = Except.ok (none,
        Browsers.empty.insert "t2"
          { tab_id := "t2", url := "https://b.test", title := "",
            is_loading := false, can_go_back := true, can_go_forward := false,
            history := [⟨"https://a.test", "", 0⟩, ⟨"https://b.test", "", 1⟩],
            history_index := 1 })) :=
  ⟨(c6_boundary_noops _ "t1" _ rfl (by decide)).1 rfl,
   (c6_boundary_noops _ "t2" _ rfl (by decide)).2 rfl⟩

/-- C9: each validated command (`create_cef_browser`, `navigate_cef`,
`cef_update_bounds`) rejects an empty tab identifier, an empty URL, or a
non-positive width/height (those of its arguments it has) with an
`InvalidPath`-carried `InvalidArgument`-class error, emitting no
notification; the command bodies never touch manager state, so a rejected
call leaves all manager state untouched. -/
theorem c9_commands_validate_before_effects :
    (∀ (tab_id url : String) (x y width height : Rat),
      tab_id = "" ∨ url = "" ∨ width ≤ 0 ∨ height ≤ 0 →
      ∃ e, CefCommands.create_cef_browser tab_id url x y width height
        = ([], Except.error e)) ∧
    (∀ tab_id url : String,
      tab_id = "" ∨ url = "" →
      ∃ e, CefCommands.navigate_cef tab_id url = ([], Except.error e)) ∧
    (∀ (tab_id : String) (x y width height : Rat) (now : Nat),
      tab_id = "" ∨ width ≤ 0 ∨ height ≤ 0 →
      ∃ e, CefCommands.cef_update_bounds tab_id x y width height now
        = ([], Except.error e)) := by
  refine ⟨?_, ?_, ?_⟩
  · intro tab_id url x y width height hbad
    unfold CefCommands.create_cef_browser
    split_ifs with h1 h2 h3
    · exact ⟨_, rfl⟩
    · exact ⟨_, rfl⟩
    · exact ⟨_, rfl⟩
    · rcases hbad with h | h | h | h
      · exact absurd h h2
      · exact absurd h h1
      · exact absurd (Or.inl h) h3
      · exact absurd (Or.inr h) h3
  · intro tab_id url hbad
    unfold CefCommands.navigate_cef
    split_ifs with h1 h2
    · exact ⟨_, rfl⟩
    · exact ⟨_, rfl⟩
    · rcases hbad with h | h
      · exact absurd h h1
      · exact absurd h h2
  · intro tab_id x y width height now hbad
    unfold CefCommands.cef_update_bounds
    split_ifs with h1 h2
    · exact ⟨_, rfl⟩
    · exact ⟨_, rfl⟩
    · rcases hbad with h | h | h
      · exact absurd h h1
      · exact absurd (Or.inl h) h2
      · exact absurd (Or.inr h) h2

/-- Witness for C9: an empty tab id, an empty URL, and a zero width are
each rejected with an error and no emitted event. -/
theorem c9_commands_validate_before_effects_witness :
    (∃ e, CefCommands.create_cef_browser "" "https://a.test" 0 0 800 600
      = ([], Except.error e)) ∧
    (∃ e, CefCommands.navigate_cef "t1" "" = ([], Except.error e)) ∧
    (∃ e, CefCommands.cef_update_bounds "t1" 0 0 0 600 5
      = ([], Except.error e)) :=
  ⟨c9_commands_validate_before_effects.1 "" "https://a.test" 0 0 800 600
      (Or.inl rfl),
   c9_commands_validate_before_effects.2.1 "t1" "" (Or.inr rfl),
   c9_commands_validate_before_effects.2.2 "t1" 0 0 0 600 5
      (Or.inr (Or.inl le_rfl))⟩

/-- A map whose function fixes every element of the list is the identity. -/
theorem listMapEqSelf {α : Type} (l : List α) (f : α → α)
    (h : ∀ a ∈ l, f a = a) : l.map f = l := by
  induction l with
  | nil => rfl
  | cons a t ih =>
      simp only [List.map_cons, h a (List.mem_cons_self a t)]
      rw [ih (fun x hx => h x (List.mem_cons_of_mem a hx))]

/-- C3 counterexample: `on_url_change` on a tab id that is not registered
does not fail — on the empty manager it returns `Ok` with the state
unchanged, refuting "every keyed operation other than register and
unregister fails with an UnknownTab error rather than succeeding". -/
theorem c3_counterexample_unknown_tab_succeeds :
    CefBrowserManager.on_url_change Browsers.empty "t1" "https://a.test" 0
      = Except.ok Browsers.empty := rfl

/-- C3 amended: operations keyed by an unregistered `tabId` never fail —
there is no `UnknownTab` error.  The navigation operations return `Ok` and
leave the manager unchanged (`goBack`/`goForward` additionally return no
URL), `hideInstance` returns `Ok` and leaves the pool unchanged, and
`showInstance` returns `Ok` after hiding every instance. -/
theorem c3_amended_unknown_tab_noops :
    (∀ (m : Browsers) (id url title : String) (now : Nat) (loading : Bool),
      m id = none →
      CefBrowserManager.on_url_change m id url now = Except.ok m ∧
      CefBrowserManager.on_title_change m id title = Except.ok m ∧
      CefBrowserManager.on_loading_state_change m id loading = Except.ok m ∧
      CefBrowserManager.on_go_back m id = Except.ok (none, m) ∧
      CefBrowserManager.on_go_forward m id = Except.ok (none, m)) ∧
    (∀ (p : CefInstancePool.Pool) (id : String),
      CefInstancePool.findInst p id = none →
      CefInstancePool.hide_instance p id = Except.ok p ∧
      CefInstancePool.show_instance p id
        = Except.ok (p.map (fun i => { i with is_visible := false }))) := by
  constructor
  · intro m id url title now loading h
    refine ⟨?_, ?_, ?_, ?_, ?_⟩ <;>
      simp [CefBrowserManager.on_url_change, CefBrowserManager.on_title_change,
        CefBrowserManager.on_loading_state_change, CefBrowserManager.on_go_back,
        CefBrowserManager.on_go_forward, h]
  · intro p id h
    have habs : ∀ i ∈ p, (i.tab_id == id) = false := by
      intro i hi
      have := List.find?_eq_none.mp h i hi
      simpa using this
    constructor
    · unfold CefInstancePool.hide_instance
      congr 1
      apply listMapEqSelf
      intro i hi
      simp [habs i hi]
    · unfold CefInstancePool.show_instance
      dsimp only
      congr 1
      apply listMapEqSelf
      intro j hj
      obtain ⟨i, hi, rfl⟩ := List.mem_map.mp hj
      simp [habs i hi]

/-- Witness for the amended C3: a `goBack` for an unregistered tab on the
empty manager, and a `showInstance` for an unregistered tab on a pool
holding one other (visible) instance. -/
theorem c3_amended_unknown_tab_noops_witness :
    CefBrowserManager.on_go_back Browsers.empty "t1"
      = Except.ok (none, Browsers.empty) ∧
    CefInstancePool.show_instance [⟨"t2", true, 0, 0, 800, 600⟩] "t1"
      = Except.ok
          ([(⟨"t2", true, 0, 0, 800, 600⟩ : CefInstance)].map
            (fun i => { i with is_visible := false })) :=
  ⟨(c3_amended_unknown_tab_noops.1 Browsers.empty "t1" "u" "t" 0 true rfl).2.2.2.1,
   (c3_amended_unknown_tab_noops.2 [⟨"t2", true, 0, 0, 800, 600⟩] "t1"
      (by decide)).2⟩

section PoolLemmas

open CefInstancePool

/-- `show_instance` in one pass: every record's visibility becomes "its key
equals the target key". -/
theorem show_instance_eq_map (p : Pool) (tab_id : String) :
    show_instance p tab_id = Except.ok (p.map (fun i =>
      if i.tab_id == tab_id then { i with is_visible := true }
      else { i with is_visible := false })) := by
  unfold show_instance
  dsimp only
  congr 1
  rw [List.map_map]
  apply List.map_congr_left
  intro i _
  by_cases h : i.tab_id == tab_id <;> simp [Function.comp, h]

/-- With unique keys, at most one record matches a given key. -/
theorem pool_countP_key_le_one (p : Pool) (tab_id : String)
    (hnd : PoolKeysNodup p) :
    p.countP (fun i => i.tab_id == tab_id) ≤ 1 := by
  induction p with
  | nil => simp
  | cons a t ih =>
      unfold PoolKeysNodup at hnd
      simp only [List.map_cons, List.nodup_cons] at hnd
      rw [List.countP_cons]
      by_cases ha : (a.tab_id == tab_id) = true
      · have hzero : t.countP (fun i => i.tab_id == tab_id) = 0 := by
          rw [List.countP_eq_zero]
          intro j hj hjid
          apply hnd.1
          have hj' : j.tab_id = tab_id := by simpa using hjid
          have ha' : a.tab_id = tab_id := by simpa using ha
          rw [ha', ← hj']
          exact List.mem_map_of_mem _ hj
        simp [hzero, ha]
      · simp only [ha, if_false]
        simpa using ih hnd.2

/-- With unique keys, a key that is present matches exactly one record. -/
theorem pool_countP_key_eq_one (p : Pool) (tab_id : String)
    (hnd : PoolKeysNodup p) (i0 : CefInstance)
    (hfind : findInst p tab_id = some i0) :
    p.countP (fun i => i.tab_id == tab_id) = 1 := by
  unfold findInst at hfind
  have hmem : i0 ∈ p := List.mem_of_find?_eq_some hfind
  have hpred := List.find?_some hfind
  have hpos : 0 < p.countP (fun i => i.tab_id == tab_id) :=
    List.countP_pos_iff.mpr ⟨i0, hmem, hpred⟩
  exact le_antisymm (pool_countP_key_le_one p tab_id hnd) hpos

/-- `find?` by key commutes with a map that preserves keys. -/
theorem find_key_map (p : Pool) (f : CefInstance → CefInstance)
    (hpres : ∀ i, (f i).tab_id = i.tab_id) (tab_id : String) :
    (p.map f).find? (fun i => i.tab_id == tab_id)
      = (p.find? (fun i => i.tab_id == tab_id)).map f := by
  induction p with
  | nil => rfl
  | cons a t ih =>
      by_cases h : (a.tab_id == tab_id) = true
      · have hfa : ((f a).tab_id == tab_id) = true := by
          rw [hpres a]; exact h
        simp [List.find?_cons, h, hfa]
      · have hfa : ((f a).tab_id == tab_id) = false := by
          rw [hpres a]; simpa using h
        simp only [List.map_cons, List.find?_cons, hfa, h, ih]

/-- The visible records after the one-pass form of `show_instance` are
counted by key matches. -/
theorem show_filter_length (p : Pool) (tab_id : String) :
    ((p.map (fun i =>
        if i.tab_id == tab_id then { i with is_visible := true }
        else { i with is_visible := false })).filter
      (fun i => i.is_visible)).length
      = p.countP (fun i => i.tab_id == tab_id) := by
  induction p with
  | nil => rfl
  | cons a t ih =>
      by_cases h : (a.tab_id == tab_id) = true
      · rw [List.map_cons, if_pos h, List.filter_cons_of_pos rfl,
          List.length_cons, ih, List.countP_cons, if_pos h]
      · rw [List.map_cons, if_neg h, List.filter_cons_of_neg (by simp),
          ih, List.countP_cons, if_neg h, Nat.add_zero]

end PoolLemmas

/-- C4: after any `show_instance(id)` call the pool has at most one visible
record; and when `id` was registered, exactly one record is visible and it
is the record for `id`.  This holds for every pool with the key uniqueness
the backing `HashMap` provides, including pools where several instances
were visible by default after registration. -/
theorem c4_show_instance_exclusivity (p : CefInstancePool.Pool)
    (tab_id : String) (p' : CefInstancePool.Pool)
    (hnd : CefInstancePool.PoolKeysNodup p)
    (hshow : CefInstancePool.show_instance p tab_id = Except.ok p') :
    (∃ n, CefInstancePool.get_visible_instance_count p' = Except.ok n ∧
      n ≤ 1) ∧
    (∀ i0, CefInstancePool.findInst p tab_id = some i0 →
      ∃ i', CefInstancePool.get_visible_instance_count p' = Except.ok 1 ∧
        CefInstancePool.get_instance p' tab_id = Except.ok (some i') ∧
        i'.is_visible = true) := by
  have hp' : p' = p.map (fun i =>
      if i.tab_id == tab_id then { i with is_visible := true }
      else { i with is_visible := false }) := by
    rw [show_instance_eq_map] at hshow
    exact (Except.ok.inj hshow).symm
  have hcount : (p'.filter (fun i => i.is_visible)).length
      = p.countP (fun i => i.tab_id == tab_id) := by
    rw [hp']
    exact show_filter_length p tab_id
  constructor
  · refine ⟨_, rfl, ?_⟩
    rw [hcount]
    exact pool_countP_key_le_one p tab_id hnd
  · intro i0 hfind
    have hone := pool_countP_key_eq_one p tab_id hnd i0 hfind
    have hpres : ∀ i : CefInstance,
        ((if i.tab_id == tab_id then { i with is_visible := true }
          else { i with is_visible := false }) : CefInstance).tab_id
          = i.tab_id := by
      intro i
      by_cases h : (i.tab_id == tab_id) = true <;> simp [h]
    have hpred : (i0.tab_id == tab_id) = true := by
      unfold CefInstancePool.findInst at hfind
      have := List.find?_some hfind
      exact this
    have hfind' : CefInstancePool.findInst p' tab_id
        = some { i0 with is_visible := true } := by
      unfold CefInstancePool.findInst at hfind ⊢
      rw [hp', find_key_map _ _ hpres, hfind]
      have heq : i0.tab_id = tab_id := by simpa using hpred
      simp [heq]
    refine ⟨{ i0 with is_visible := true }, ?_, ?_, rfl⟩
    · unfold CefInstancePool.get_visible_instance_count
      rw [hcount, hone]
    · unfold CefInstancePool.get_instance
      rw [hfind']

/-- Witness for C4: two instances visible by default, then `showInstance`
on the second leaves exactly one visible record — the target's. -/
theorem c4_show_instance_exclusivity_witness :
    ∃ i', CefInstancePool.get_visible_instance_count
        [(⟨"t1", false, 0, 0, 800, 600⟩ : CefInstance),
         ⟨"t2", true, 0, 0, 800, 600⟩] = Except.ok 1 ∧
      CefInstancePool.get_instance
        [(⟨"t1", false, 0, 0, 800, 600⟩ : CefInstance),
         ⟨"t2", true, 0, 0, 800, 600⟩] "t2" = Except.ok (some i') ∧
      i'.is_visible = true :=
  (c4_show_instance_exclusivity
    [⟨"t1", true, 0, 0, 800, 600⟩, ⟨"t2", true, 0, 0, 800, 600⟩] "t2"
    [⟨"t1", false, 0, 0, 800, 600⟩, ⟨"t2", true, 0, 0, 800, 600⟩]
    (by unfold CefInstancePool.PoolKeysNodup; decide) rfl).2
    ⟨"t2", true, 0, 0, 800, 600⟩ (by decide)

/-- C8: for a registered tab with an in-range cursor, `on_title_change`
sets `title` (the current title) and overwrites the `title` of the history
entry at the current cursor, leaving every other field and every other
history entry unchanged. -/
theorem c8_title_change_backfills (m : Browsers) (id title : String)
    (b : CefBrowserInfo) (hb : m id = some b)
    (hidx : b.history_index < b.history.length) :
    ∃ e m', b.history[b.history_index]? = some e ∧
      CefBrowserManager.on_title_change m id title = Except.ok m' ∧
      m' id = some { b with
        title := title
        history := b.history.set b.history_index { e with title := title } } ∧
      (b.history.set b.history_index
          { e with title := title })[b.history_index]?
        = some { e with title := title } ∧
      ∀ j, j ≠ b.history_index →
        (b.history.set b.history_index { e with title := title })[j]?
          = b.history[j]? := by
  have he : b.history[b.history_index]? = some b.history[b.history_index] :=
    List.getElem?_eq_getElem hidx
  have hstep : b.applyTitleChange title = { b with
      title := title
      history := b.history.set b.history_index
        { b.history[b.history_index] with title := title } } := by
    unfold CefBrowserInfo.applyTitleChange
    dsimp only
    rw [he]
  refine ⟨b.history[b.history_index],
    m.insert id (b.applyTitleChange title), he, ?_, ?_, ?_, ?_⟩
  · unfold CefBrowserManager.on_title_change
    rw [hb]
  · rw [hstep]
    exact Browsers.insert_self m id _
  · rw [List.getElem?_set_self]
    exact hidx
  · intro j hj
    exact List.getElem?_set_ne (fun h => hj h.symm)

/-- Witness for C8: a title arriving for a freshly registered tab, before
any URL change, back-fills the seed entry's title. -/
theorem c8_title_change_backfills_witness :
    ∃ e m', ([(⟨"https://a.test", "", 3⟩ : NavigationHistoryEntry)])[0]?
        = some e ∧
      CefBrowserManager.on_title_change
        (Browsers.empty.insert "t1"
          { tab_id := "t1", url := "https://a.test", title := "",
            is_loading := true, can_go_back := false, can_go_forward := false,
            history := [⟨"https://a.test", "", 3⟩], history_index := 0 })
        "t1" "Example Page" = Except.ok m' ∧
      m' "t1" = some
        { tab_id := "t1", url := "https://a.test", title := "Example Page",
          is_loading := true, can_go_back := false, can_go_forward := false,
          history := ([(⟨"https://a.test", "", 3⟩ : NavigationHistoryEntry)]).set 0
            { e with title := "Example Page" },
          history_index := 0 } ∧
      (([(⟨"https://a.test", "", 3⟩ : NavigationHistoryEntry)]).set 0
          { e with title := "Example Page" })[0]?
        = some { e with title := "Example Page" } ∧
      ∀ j, j ≠ 0 →
        (([(⟨"https://a.test", "", 3⟩ : NavigationHistoryEntry)]).set 0
            { e with title := "Example Page" })[j]?
          = ([(⟨"https://a.test", "", 3⟩ : NavigationHistoryEntry)])[j]? :=
  c8_title_change_backfills
    (Browsers.empty.insert "t1"
      { tab_id := "t1", url := "https://a.test", title := "",
        is_loading := true, can_go_back := false, can_go_forward := false,
        history := [⟨"https://a.test", "", 3⟩], history_index := 0 })
    "t1" "Example Page"
    { tab_id := "t1", url := "https://a.test", title := "",
      is_loading := true, can_go_back := false, can_go_forward := false,
      history := [⟨"https://a.test", "", 3⟩], history_index := 0 }
    rfl (by decide)

/-- C7 counterexample: with two registered instances both visible,
`show_instance("t1")` changes the `is_visible` field of tab `"t2"`'s
record from `true` to `false`, refuting "every operation invoked with tab
A's identifier — including showInstance — leaves every field of tab B's
instance record unchanged". -/
theorem c7_counterexample_show_mutates_other_tab :
    CefInstancePool.get_instance
        [(⟨"t1", true, 0, 0, 800, 600⟩ : CefInstance),
         ⟨"t2", true, 0, 0, 800, 600⟩] "t2"
      = Except.ok (some ⟨"t2", true, 0, 0, 800, 600⟩) ∧
    CefInstancePool.show_instance
        [(⟨"t1", true, 0, 0, 800, 600⟩ : CefInstance),
         ⟨"t2", true, 0, 0, 800, 600⟩] "t1"
      = Except.ok [⟨"t1", true, 0, 0, 800, 600⟩, ⟨"t2", false, 0, 0, 800, 600⟩] ∧
    CefInstancePool.get_instance
        [(⟨"t1", true, 0, 0, 800, 600⟩ : CefInstance),
         ⟨"t2", false, 0, 0, 800, 600⟩] "t2"
      = Except.ok (some ⟨"t2", false, 0, 0, 800, 600⟩) :=
  ⟨rfl, rfl, rfl⟩

section TabIndependenceLemmas

open CefInstancePool

/-- A key-preserving map that fixes every record keyed `B` leaves the
lookup of `B` unchanged. -/
theorem findInst_map_key_fix (p : Pool) (f : CefInstance → CefInstance)
    (hpres : ∀ i, (f i).tab_id = i.tab_id) (B : String)
    (hfix : ∀ i, i.tab_id = B → f i = i) :
    findInst (p.map f) B = findInst p B := by
  unfold findInst
  rw [find_key_map p f hpres]
  rcases hfd : p.find? (fun i => i.tab_id == B) with _ | j
  · rw [hfd]
    rfl
  · rw [hfd]
    have hjB : j.tab_id = B := by simpa using List.find?_some hfd
    simp [hfix j hjB]

/-- Appending a record with a different key leaves the lookup of `B`
unchanged. -/
theorem findInst_append_single_ne (p : Pool) (inst : CefInstance)
    (B : String) (h : inst.tab_id ≠ B) :
    findInst (p ++ [inst]) B = findInst p B := by
  unfold findInst
  have hf : (inst.tab_id == B) = false := by
    simpa using h
  induction p with
  | nil => simp [List.find?, hf]
  | cons a t ih =>
      by_cases ha : (a.tab_id == B) = true
      · simp [List.find?_cons, ha]
      · simp only [List.cons_append, List.find?_cons, ha]
        exact ih

/-- Filtering out the records keyed `A` leaves the lookup of `B ≠ A`
unchanged. -/
theorem findInst_filter_key_ne (p : Pool) (A B : String) (h : B ≠ A) :
    findInst (p.filter (fun i => !(i.tab_id == A))) B = findInst p B := by
  unfold findInst
  induction p with
  | nil => rfl
  | cons a t ih =>
      by_cases haA : (a.tab_id == A) = true
      · have haA' : a.tab_id = A := by simpa using haA
        have haB : (a.tab_id == B) = false := by
          rw [haA']
          simpa using Ne.symm h
        simp [List.filter_cons, List.find?_cons, haA, haB, ih]
      · by_cases haB : (a.tab_id == B) = true
        · simp [List.filter_cons, List.find?_cons, haA, haB]
        · simp [List.filter_cons, List.find?_cons, haA, haB, ih]

end TabIndependenceLemmas

/-- C7 amended: every Navigation State Manager operation invoked with tab
A's identifier leaves tab B's navigation state unchanged, and every
Instance Visibility Pool operation other than `showInstance` leaves tab
B's instance record unchanged; `showInstance(A)` leaves all of B's fields
except `is_visible` unchanged, setting that flag to `false`. -/
theorem c7_amended_tab_independence (A B : String) (hne : B ≠ A) :
    (∀ (m : Browsers) (u : String) (t : Nat) (m' : Browsers),
      CefBrowserManager.register_browser m A u t = Except.ok m' →
      m' B = m B) ∧
    (∀ (m m' : Browsers),
      CefBrowserManager.unregister_browser m A = Except.ok m' → m' B = m B) ∧
    (∀ (m : Browsers) (u : String) (t : Nat) (m' : Browsers),
      CefBrowserManager.on_url_change m A u t = Except.ok m' → m' B = m B) ∧
    (∀ (m : Browsers) (ti : String) (m' : Browsers),
      CefBrowserManager.on_title_change m A ti = Except.ok m' → m' B = m B) ∧
    (∀ (m : Browsers) (lo : Bool) (m' : Browsers),
      CefBrowserManager.on_loading_state_change m A lo = Except.ok m' →
      m' B = m B) ∧
    (∀ (m : Browsers) (r : Option String) (m' : Browsers),
      CefBrowserManager.on_go_back m A = Except.ok (r, m') → m' B = m B) ∧
    (∀ (m : Browsers) (r : Option String) (m' : Browsers),
      CefBrowserManager.on_go_forward m A = Except.ok (r, m') → m' B = m B) ∧
    (∀ (p : CefInstancePool.Pool) (x y w h : Rat) (p' : CefInstancePool.Pool),
      CefInstancePool.register_instance p A x y w h = Except.ok p' →
      CefInstancePool.findInst p' B = CefInstancePool.findInst p B) ∧
    (∀ (p p' : CefInstancePool.Pool),
      CefInstancePool.unregister_instance p A = Except.ok p' →
      CefInstancePool.findInst p' B = CefInstancePool.findInst p B) ∧
    (∀ (p p' : CefInstancePool.Pool),
      CefInstancePool.hide_instance p A = Except.ok p' →
      CefInstancePool.findInst p' B = CefInstancePool.findInst p B) ∧
    (∀ (p : CefInstancePool.Pool) (x y w h : Rat) (p' : CefInstancePool.Pool),
      CefInstancePool.update_instance_bounds p A x y w h = Except.ok p' →
      CefInstancePool.findInst p' B = CefInstancePool.findInst p B) ∧
    (∀ (p p' : CefInstancePool.Pool),
      CefInstancePool.show_instance p A = Except.ok p' →
      CefInstancePool.findInst p' B
        = (CefInstancePool.findInst p B).map
            (fun i => { i with is_visible := false })) := by
  have hAB : ∀ i : CefInstance, i.tab_id = B → (i.tab_id == A) = false := by
    intro i hiB
    simp [hiB, hne]
  refine ⟨?_, ?_, ?_, ?_, ?_, ?_, ?_, ?_, ?_, ?_, ?_, ?_⟩
  · intro m u t m' hcall
    rw [← Except.ok.inj hcall]
    exact Browsers.insert_ne m A B _ hne
  · intro m m' hcall
    rw [← Except.ok.inj hcall]
    simp [Browsers.remove, hne]
  · intro m u t m' hcall
    rcases hma : m A with _ | b <;>
      · unfold CefBrowserManager.on_url_change at hcall
        rw [hma] at hcall
        rw [← Except.ok.inj hcall]
        try exact Browsers.insert_ne m A B _ hne
  · intro m ti m' hcall
    rcases hma : m A with _ | b <;>
      · unfold CefBrowserManager.on_title_change at hcall
        rw [hma] at hcall
        rw [← Except.ok.inj hcall]
        try exact Browsers.insert_ne m A B _ hne
  · intro m lo m' hcall
    rcases hma : m A with _ | b <;>
      · unfold CefBrowserManager.on_loading_state_change at hcall
        rw [hma] at hcall
        rw [← Except.ok.inj hcall]
        try exact Browsers.insert_ne m A B _ hne
  · intro m r m' hcall
    unfold CefBrowserManager.on_go_back at hcall
    rcases hma : m A with _ | b <;> rw [hma] at hcall
    · rw [← (Prod.mk.injEq _ _ _ _).mp (Except.ok.inj hcall) |>.2]
    · rw [← (Prod.mk.injEq _ _ _ _).mp (Except.ok.inj hcall) |>.2]
      exact Browsers.insert_ne m A B _ hne
  · intro m r m' hcall
    unfold CefBrowserManager.on_go_forward at hcall
    rcases hma : m A with _ | b <;> rw [hma] at hcall
    · rw [← (Prod.mk.injEq _ _ _ _).mp (Except.ok.inj hcall) |>.2]
    · rw [← (Prod.mk.injEq _ _ _ _).mp (Except.ok.inj hcall) |>.2]
      exact Browsers.insert_ne m A B _ hne
  · intro p x y w h p' hcall
    unfold CefInstancePool.register_instance at hcall
    rw [← Except.ok.inj hcall]
    by_cases hany : p.any (fun i => i.tab_id == A)
    · rw [if_pos hany]
      apply findInst_map_key_fix
      · intro i
        by_cases hi : (i.tab_id == A) = true
        · have : i.tab_id = A := by simpa using hi
          simp [hi, this]
        · simp [hi]
      · intro i hiB
        simp [hAB i hiB]
    · rw [if_neg hany]
      exact findInst_append_single_ne p _ B (fun hh => hne hh.symm)
  · intro p p' hcall
    unfold CefInstancePool.unregister_instance at hcall
    rw [← Except.ok.inj hcall]
    exact findInst_filter_key_ne p A B hne
  · intro p p' hcall
    unfold CefInstancePool.hide_instance at hcall
    rw [← Except.ok.inj hcall]
    apply findInst_map_key_fix
    · intro i
      by_cases hi : (i.tab_id == A) = true <;> simp [hi]
    · intro i hiB
      simp [hAB i hiB]
  · intro p x y w h p' hcall
    unfold CefInstancePool.update_instance_bounds at hcall
    rw [← Except.ok.inj hcall]
    apply findInst_map_key_fix
    · intro i
      by_cases hi : (i.tab_id == A) = true <;> simp [hi]
    · intro i hiB
      simp [hAB i hiB]
  · intro p p' hcall
    rw [show_instance_eq_map] at hcall
    rw [← Except.ok.inj hcall]
    unfold CefInstancePool.findInst
    rw [find_key_map]
    · rcases hfd : p.find? (fun i => i.tab_id == B) with _ | j
      · rw [hfd]
        rfl
      · rw [hfd]
        have hjB : j.tab_id = B := by simpa using List.find?_some hfd
        have hjA : ¬j.tab_id = A := fun hh => hne (hjB.symm.trans hh)
        simp [hjA]
    · intro i
      by_cases hi : (i.tab_id == A) = true
      · have : i.tab_id = A := by simpa using hi
        simp [hi, this]
      · simp [hi]

/-- Witness for the amended C7: a URL change on tab `"t1"` leaves tab
`"t2"`'s navigation state untouched, and `showInstance("t1")` changes only
the visibility flag of `"t2"`'s record. -/
theorem c7_amended_tab_independence_witness :
    (∃ m', CefBrowserManager.on_url_change
        ((Browsers.empty.insert "t2"
            ⟨"t2", "https://b.test", "", true, false, false,
              [⟨"https://b.test", "", 0⟩], 0⟩).insert "t1"
          ⟨"t1", "https://a.test", "", true, false, false,
            [⟨"https://a.test", "", 0⟩], 0⟩)
        "t1" "https://x.test" 9 = Except.ok m' ∧
      m' "t2" = ((Browsers.empty.insert "t2"
            ⟨"t2", "https://b.test", "", true, false, false,
              [⟨"https://b.test", "", 0⟩], 0⟩).insert "t1"
          ⟨"t1", "https://a.test", "", true, false, false,
            [⟨"https://a.test", "", 0⟩], 0⟩) "t2") ∧
    (∃ p', CefInstancePool.show_instance
        [(⟨"t1", true, 0, 0, 800, 600⟩ : CefInstance),
         ⟨"t2", true, 0, 0, 800, 600⟩] "t1" = Except.ok p' ∧
      CefInstancePool.findInst p' "t2"
        = (CefInstancePool.findInst
            [(⟨"t1", true, 0, 0, 800, 600⟩ : CefInstance),
             ⟨"t2", true, 0, 0, 800, 600⟩] "t2").map
            (fun i => { i with is_visible := false })) := by
  constructor
  · refine ⟨_, rfl, ?_⟩
    exact (c7_amended_tab_independence "t1" "t2" (by decide)).2.2.1
      _ "https://x.test" 9 _ rfl
  · refine ⟨_, rfl, ?_⟩
    exact (c7_amended_tab_independence "t1" "t2"
      (by decide)).2.2.2.2.2.2.2.2.2.2.2 _ _ rfl

section StepSpecLemmas

/-- Closed form of `applyUrlChange` when the cursor is in range: truncate
to the first `historyIndex + 1` entries, append the fresh entry, advance
the cursor, set `canGoBack` and clear `canGoForward`. -/
theorem applyUrlChange_spec (b : CefBrowserInfo) (url : String) (now : Nat)
    (hidx : b.history_index < b.history.length) :
    b.applyUrlChange url now = { b with
      url := url
      history := b.history.take (b.history_index + 1) ++ [⟨url, "", now⟩]
      history_index := b.history_index + 1
      can_go_back := true
      can_go_forward := false } := by
  unfold CefBrowserInfo.applyUrlChange
  have htrunc : (if b.history_index < b.history.length - 1 then
        b.history.take (b.history_index + 1)
      else b.history) = b.history.take (b.history_index + 1) := by
    by_cases hg : b.history_index < b.history.length - 1
    · rw [if_pos hg]
    · rw [if_neg hg, List.take_of_length_le (by omega)]
  rw [htrunc]
  dsimp only
  have hlen : (b.history.take (b.history_index + 1)
      ++ [(⟨url, "", now⟩ : NavigationHistoryEntry)]).length
      = b.history_index + 2 := by
    rw [List.length_append, List.length_take]
    simp
    omega
  rw [hlen]
  simp

/-- Closed form of `applyGoBack` when the cursor is positive and in
range. -/
theorem applyGoBack_spec (b : CefBrowserInfo)
    (hidx : b.history_index < b.history.length)
    (hpos : 0 < b.history_index) :
    ∃ e, b.history[b.history_index - 1]? = some e ∧
      b.applyGoBack = (some e.url, { b with
        history_index := b.history_index - 1
        can_go_back := decide (0 < b.history_index - 1)
        can_go_forward := true
        url := e.url }) := by
  have he : b.history[b.history_index - 1]?
      = some b.history[b.history_index - 1] :=
    List.getElem?_eq_getElem (by omega)
  refine ⟨_, he, ?_⟩
  unfold CefBrowserInfo.applyGoBack
  rw [if_pos hpos]
  dsimp only
  rw [he]

/-- Closed form of `applyGoForward` when the cursor is strictly before the
last entry. -/
theorem applyGoForward_spec (b : CefBrowserInfo)
    (hlt : b.history_index < b.history.length - 1) :
    ∃ e, b.history[b.history_index + 1]? = some e ∧
      b.applyGoForward = (some e.url, { b with
        history_index := b.history_index + 1
        can_go_forward := decide (b.history_index + 1 < b.history.length - 1)
        can_go_back := true
        url := e.url }) := by
  have he : b.history[b.history_index + 1]?
      = some b.history[b.history_index + 1] :=
    List.getElem?_eq_getElem (by omega)
  refine ⟨_, he, ?_⟩
  unfold CefBrowserInfo.applyGoForward
  rw [if_pos hlt]
  dsimp only
  rw [he]

end StepSpecLemmas

section WfLemmas

/-- The freshly seeded state of `register_browser` satisfies the per-tab
invariants. -/
theorem wf_registered (tab_id url : String) (now : Nat) :
    BrowserWf
      { tab_id := tab_id, url := url, title := "",
        is_loading := true, can_go_back := false, can_go_forward := false,
        history := [⟨url, "", now⟩], history_index := 0 } := by
  refine ⟨by simp, by simp, by simp, by simp, by simp⟩

/-- `applyUrlChange` preserves the per-tab invariants. -/
theorem wf_applyUrlChange (b : CefBrowserInfo) (hwf : BrowserWf b)
    (url : String) (now : Nat) : BrowserWf (b.applyUrlChange url now) := by
  obtain ⟨hne, hidx, hback, hfwd, hurl⟩ := hwf
  rw [applyUrlChange_spec b url now hidx]
  have hlen : (b.history.take (b.history_index + 1)).length
      = b.history_index + 1 := by
    rw [List.length_take]
    omega
  refine ⟨by simp, ?_, ?_, ?_, ?_⟩
  · simp only [List.length_append, hlen]
    simp
  · simp only [List.length_append, hlen]
    simp
  · simp only [List.length_append, hlen]
    simp
  · have : (b.history.take (b.history_index + 1)
        ++ [(⟨url, "", now⟩ : NavigationHistoryEntry)])[b.history_index + 1]?
        = some ⟨url, "", now⟩ := by
      rw [List.getElem?_append_right (by omega)]
      simp [hlen]
    rw [this]
    rfl

/-- `applyTitleChange` preserves the per-tab invariants. -/
theorem wf_applyTitleChange (b : CefBrowserInfo) (hwf : BrowserWf b)
    (title : String) : BrowserWf (b.applyTitleChange title) := by
  obtain ⟨hne, hidx, hback, hfwd, hurl⟩ := hwf
  have he : b.history[b.history_index]? = some b.history[b.history_index] :=
    List.getElem?_eq_getElem hidx
  have hstep : b.applyTitleChange title = { b with
      title := title
      history := b.history.set b.history_index
        { b.history[b.history_index] with title := title } } := by
    unfold CefBrowserInfo.applyTitleChange
    dsimp only
    rw [he]
  rw [hstep]
  refine ⟨by simpa using hne, by simpa using hidx,
    by simpa using hback, ?_, ?_⟩
  · simpa using hfwd
  · have hget : (b.history.set b.history_index
        { b.history[b.history_index] with title := title })[b.history_index]?
        = some { b.history[b.history_index] with title := title } := by
      rw [List.getElem?_set_self]
      exact hidx
    have hu : b.history[b.history_index].url = b.url := by
      rw [he] at hurl
      simpa using hurl
    rw [hget]
    simpa using hu

/-- `applyLoadingChange` preserves the per-tab invariants. -/
theorem wf_applyLoadingChange (b : CefBrowserInfo) (hwf : BrowserWf b)
    (lo : Bool) : BrowserWf (b.applyLoadingChange lo) := by
  obtain ⟨hne, hidx, hback, hfwd, hurl⟩ := hwf
  exact ⟨hne, hidx, hback, hfwd, hurl⟩

/-- `applyGoBack` preserves the per-tab invariants. -/
theorem wf_applyGoBack (b : CefBrowserInfo) (hwf : BrowserWf b) :
    BrowserWf b.applyGoBack.2 := by
  obtain ⟨hne, hidx, hback, hfwd, hurl⟩ := hwf
  by_cases hpos : 0 < b.history_index
  · obtain ⟨e, he, hspec⟩ := applyGoBack_spec b hidx hpos
    rw [hspec]
    refine ⟨hne, by simpa using (by omega : b.history_index - 1 < b.history.length), rfl, ?_, ?_⟩
    · have hbnd : b.history_index - 1 < b.history.length - 1 := by omega
      simp [hbnd]
    · rw [he]
      rfl
  · have hzero : b.applyGoBack = (none, b) := by
      unfold CefBrowserInfo.applyGoBack
      rw [if_neg hpos]
    rw [hzero]
    exact ⟨hne, hidx, hback, hfwd, hurl⟩

/-- `applyGoForward` preserves the per-tab invariants. -/
theorem wf_applyGoForward (b : CefBrowserInfo) (hwf : BrowserWf b) :
    BrowserWf b.applyGoForward.2 := by
  obtain ⟨hne, hidx, hback, hfwd, hurl⟩ := hwf
  by_cases hlt : b.history_index < b.history.length - 1
  · obtain ⟨e, he, hspec⟩ := applyGoForward_spec b hlt
    rw [hspec]
    refine ⟨hne, by simpa using (by omega : b.history_index + 1 < b.history.length), ?_, rfl, ?_⟩
    · simp
    · rw [he]
      rfl
  · have hstop : b.applyGoForward = (none, b) := by
      unfold CefBrowserInfo.applyGoForward
      rw [if_neg hlt]
    rw [hstop]
    exact ⟨hne, hidx, hback, hfwd, hurl⟩

/-- Inserting an invariant-satisfying state preserves manager
well-formedness. -/
theorem managerWf_insert (m : Browsers) (id : String) (b : CefBrowserInfo)
    (hm : ManagerWf m) (hb : BrowserWf b) : ManagerWf (m.insert id b) := by
  intro k b' hk
  by_cases hkid : k = id
  · subst hkid
    rw [Browsers.insert_self] at hk
    exact (Option.some.inj hk) ▸ hb
  · rw [Browsers.insert_ne m id k b hkid] at hk
    exact hm k b' hk

end WfLemmas

/-- C2: each Navigation State Manager operation — register, onUrlChanged,
onTitleChanged, onLoadingStateChanged, goBack, goForward — preserves, for
every registered tab, the invariant conjunction: non-empty history,
`0 ≤ historyIndex < history.length`, `canGoBack = (historyIndex > 0)`,
`canGoForward = (historyIndex < history.length - 1)`, and
`currentUrl = history[historyIndex].url`. -/
theorem c2_operations_preserve_invariants (m : Browsers) (hm : ManagerWf m) :
    (∀ (id u : String) (t : Nat) (m' : Browsers),
      CefBrowserManager.register_browser m id u t = Except.ok m' →
      ManagerWf m') ∧
    (∀ (id u : String) (t : Nat) (m' : Browsers),
      CefBrowserManager.on_url_change m id u t = Except.ok m' →
      ManagerWf m') ∧
    (∀ (id ti : String) (m' : Browsers),
      CefBrowserManager.on_title_change m id ti = Except.ok m' →
      ManagerWf m') ∧
    (∀ (id : String) (lo : Bool) (m' : Browsers),
      CefBrowserManager.on_loading_state_change m id lo = Except.ok m' →
      ManagerWf m') ∧
    (∀ (id : String) (r : Option String) (m' : Browsers),
      CefBrowserManager.on_go_back m id = Except.ok (r, m') →
      ManagerWf m') ∧
    (∀ (id : String) (r : Option String) (m' : Browsers),
      CefBrowserManager.on_go_forward m id = Except.ok (r, m') →
      ManagerWf m') := by
  refine ⟨?_, ?_, ?_, ?_, ?_, ?_⟩
  · intro id u t m' hcall
    rw [← Except.ok.inj hcall]
    exact managerWf_insert m id _ hm (wf_registered id u t)
  · intro id u t m' hcall
    unfold CefBrowserManager.on_url_change at hcall
    rcases hma : m id with _ | b <;> rw [hma] at hcall <;>
      rw [← Except.ok.inj hcall]
    · exact hm
    · exact managerWf_insert m id _ hm
        (wf_applyUrlChange b (hm id b hma) u t)
  · intro id ti m' hcall
    unfold CefBrowserManager.on_title_change at hcall
    rcases hma : m id with _ | b <;> rw [hma] at hcall <;>
      rw [← Except.ok.inj hcall]
    · exact hm
    · exact managerWf_insert m id _ hm
        (wf_applyTitleChange b (hm id b hma) ti)
  · intro id lo m' hcall
    unfold CefBrowserManager.on_loading_state_change at hcall
    rcases hma : m id with _ | b <;> rw [hma] at hcall <;>
      rw [← Except.ok.inj hcall]
    · exact hm
    · exact managerWf_insert m id _ hm
        (wf_applyLoadingChange b (hm id b hma) lo)
  · intro id r m' hcall
    unfold CefBrowserManager.on_go_back at hcall
    rcases hma : m id with _ | b <;> rw [hma] at hcall <;>
      rw [← (Prod.mk.injEq _ _ _ _).mp (Except.ok.inj hcall) |>.2]
    · exact hm
    · exact managerWf_insert m id _ hm (wf_applyGoBack b (hm id b hma))
  · intro id r m' hcall
    unfold CefBrowserManager.on_go_forward at hcall
    rcases hma : m id with _ | b <;> rw [hma] at hcall <;>
      rw [← (Prod.mk.injEq _ _ _ _).mp (Except.ok.inj hcall) |>.2]
    · exact hm
    · exact managerWf_insert m id _ hm (wf_applyGoForward b (hm id b hma))

/-- Witness for C2: the fresh tab produced by `register_browser` on the
empty manager satisfies the invariants for every registered tab. -/
theorem c2_operations_preserve_invariants_witness :
    ManagerWf (Browsers.empty.insert "t1"
      { tab_id := "t1", url := "https://a.test", title := "",
        is_loading := true, can_go_back := false, can_go_forward := false,
        history := [⟨"https://a.test", "", 0⟩], history_index := 0 }) :=
  (c2_operations_preserve_invariants Browsers.empty
    (by intro id b h; simp [Browsers.empty] at h)).1
    "t1" "https://a.test" 0 _ rfl

section IterationLemmas

/-- `goBack` never changes the history list itself. -/
theorem applyGoBack_history (b : CefBrowserInfo) :
    b.applyGoBack.2.history = b.history := by
  unfold CefBrowserInfo.applyGoBack
  by_cases h : 0 < b.history_index
  · rw [if_pos h]
    dsimp only
    rcases b.history[b.history_index - 1]? with _ | e <;> rfl
  · rw [if_neg h]

/-- `goForward` never changes the history list itself. -/
theorem applyGoForward_history (b : CefBrowserInfo) :
    b.applyGoForward.2.history = b.history := by
  unfold CefBrowserInfo.applyGoForward
  by_cases h : b.history_index < b.history.length - 1
  · rw [if_pos h]
    dsimp only
    rcases b.history[b.history_index + 1]? with _ | e <;> rfl
  · rw [if_neg h]

/-- `goBackState` on a registered tab stores the stepped state. -/
theorem goBackState_lookup (m : Browsers) (tab_id : String)
    (b : CefBrowserInfo) (hb : m tab_id = some b) :
    goBackState m tab_id = m.insert tab_id b.applyGoBack.2 := by
  unfold goBackState CefBrowserManager.on_go_back
  rw [hb]

/-- `goForwardState` on a registered tab stores the stepped state. -/
theorem goForwardState_lookup (m : Browsers) (tab_id : String)
    (b : CefBrowserInfo) (hb : m tab_id = some b) :
    goForwardState m tab_id = m.insert tab_id b.applyGoForward.2 := by
  unfold goForwardState CefBrowserManager.on_go_forward
  rw [hb]

/-- Any interleaving of back/forward calls keeps the tab registered with
its history list untouched. -/
theorem navMoves_history (tab_id : String) (moves : List Bool) :
    ∀ (m : Browsers) (b : CefBrowserInfo), m tab_id = some b →
    ∃ b2, (navMoves tab_id moves m) tab_id = some b2 ∧
      b2.history = b.history := by
  induction moves with
  | nil => exact fun m b hb => ⟨b, hb, rfl⟩
  | cons mv rest ih =>
      intro m b hb
      have hcons : navMoves tab_id (mv :: rest) m
          = navMoves tab_id rest
            (if mv then goBackState m tab_id else goForwardState m tab_id) :=
        rfl
      rcases mv with _ | _
      · have hb1 : (goForwardState m tab_id) tab_id
            = some b.applyGoForward.2 := by
          rw [goForwardState_lookup m tab_id b hb]
          exact Browsers.insert_self m tab_id _
        obtain ⟨b2, hb2, hh2⟩ := ih _ _ hb1
        rw [hcons]
        exact ⟨b2, by simpa using hb2,
          hh2.trans (applyGoForward_history b)⟩
      · have hb1 : (goBackState m tab_id) tab_id
            = some b.applyGoBack.2 := by
          rw [goBackState_lookup m tab_id b hb]
          exact Browsers.insert_self m tab_id _
        obtain ⟨b2, hb2, hh2⟩ := ih _ _ hb1
        rw [hcons]
        exact ⟨b2, by simpa using hb2,
          hh2.trans (applyGoBack_history b)⟩

/-- `goForward` for a tab whose cursor is at the last entry is a complete
no-op returning no URL. -/
theorem go_forward_at_last (m : Browsers) (tab_id : String)
    (b : CefBrowserInfo) (hb : m tab_id = some b)
    (hlast : b.history_index = b.history.length - 1) :
    CefBrowserManager.on_go_forward m tab_id = Except.ok (none, m) := by
  have hstep : b.applyGoForward = (none, b) := by
    unfold CefBrowserInfo.applyGoForward
    rw [hlast]
    simp
  unfold CefBrowserManager.on_go_forward
  rw [hb]
  dsimp only
  rw [hstep]
  rw [Browsers.insert_eq_self m tab_id b hb]

end IterationLemmas

/-- C1: on a registered, invariant-satisfying tab with cursor `i`,
`on_url_change(tabId, url)` discards every history entry after index `i`
and appends a fresh entry `⟨url, "", now⟩`: afterwards the history is
`take (i+1) ++ [fresh]` of length `i + 2`, the cursor is `i + 1`,
`currentUrl = url`, `canGoForward = false`, an immediate `goForward` is a
no-op returning no URL, and after any further interleaving of
`goBack`/`goForward` calls the tab's history is still exactly the
truncated-plus-appended list, so the discarded forward entries can never
be reached again. -/
theorem c1_url_change_truncates_and_appends (m : Browsers) (tab_id u : String)
    (now : Nat) (b : CefBrowserInfo) (m' : Browsers)
    (hb : m tab_id = some b) (hwf : BrowserWf b)
    (hcall : CefBrowserManager.on_url_change m tab_id u now = Except.ok m') :
    ∃ b', m' tab_id = some b' ∧
      b'.history = b.history.take (b.history_index + 1) ++ [⟨u, "", now⟩] ∧
      b'.history.length = b.history_index + 2 ∧
      b'.history_index = b.history_index + 1 ∧
      b'.url = u ∧
      b'.can_go_forward = false ∧
      CefBrowserManager.on_go_forward m' tab_id = Except.ok (none, m') ∧
      (∀ moves : List Bool, ∃ b2,
        (navMoves tab_id moves m') tab_id = some b2 ∧
        b2.history = b'.history) := by
  obtain ⟨hne, hidx, hback, hfwd, hurl⟩ := hwf
  have hspec := applyUrlChange_spec b u now hidx
  have hm' : m' = m.insert tab_id (b.applyUrlChange u now) := by
    unfold CefBrowserManager.on_url_change at hcall
    rw [hb] at hcall
    exact (Except.ok.inj hcall).symm
  have hlook : m' tab_id = some (b.applyUrlChange u now) := by
    rw [hm']
    exact Browsers.insert_self m tab_id _
  have hlen : (b.history.take (b.history_index + 1)
      ++ [(⟨u, "", now⟩ : NavigationHistoryEntry)]).length
      = b.history_index + 2 := by
    rw [List.length_append, List.length_take]
    simp
    omega
  refine ⟨b.applyUrlChange u now, hlook, ?_, ?_, ?_, ?_, ?_, ?_, ?_⟩
  · rw [hspec]
  · rw [hspec]
    exact hlen
  · rw [hspec]
  · rw [hspec]
  · rw [hspec]
  · apply go_forward_at_last m' tab_id _ hlook
    rw [hspec]
    dsimp only
    rw [hlen]
    omega
  · intro moves
    obtain ⟨b2, hb2, hh2⟩ := navMoves_history tab_id moves m' _ hlook
    exact ⟨b2, hb2, by rw [hh2, hspec]⟩

/-- Witness for C1: tab at `[a, b]` with cursor moved back to 0 gets a URL
change to `c`; entry `b` is discarded and `[a, c]` results. -/
theorem c1_url_change_truncates_and_appends_witness :
    ∃ b', (Browsers.empty.insert "t1"
        { tab_id := "t1", url := "https://a.test", title := "",
          is_loading := true, can_go_back := false, can_go_forward := true,
          history := [⟨"https://a.test", "", 0⟩, ⟨"https://b.test", "", 1⟩],
          history_index := 0 }).insert "t1"
        (CefBrowserInfo.applyUrlChange
          { tab_id := "t1", url := "https://a.test", title := "",
            is_loading := true, can_go_back := false, can_go_forward := true,
            history := [⟨"https://a.test", "", 0⟩, ⟨"https://b.test", "", 1⟩],
            history_index := 0 }
          "https://c.test" 2) "t1" = some b' ∧
      b'.history = [⟨"https://a.test", "", 0⟩].take 1
          ++ [⟨"https://c.test", "", 2⟩] ∧
      b'.history.length = 2 ∧
      b'.history_index = 1 ∧
      b'.url = "https://c.test" ∧
      b'.can_go_forward = false ∧
      CefBrowserManager.on_go_forward
        ((Browsers.empty.insert "t1"
          { tab_id := "t1", url := "https://a.test", title := "",
            is_loading := true, can_go_back := false, can_go_forward := true,
            history := [⟨"https://a.test", "", 0⟩, ⟨"https://b.test", "", 1⟩],
            history_index := 0 }).insert "t1"
          (CefBrowserInfo.applyUrlChange
            { tab_id := "t1", url := "https://a.test", title := "",
              is_loading := true, can_go_back := false, can_go_forward := true,
              history := [⟨"https://a.test", "", 0⟩, ⟨"https://b.test", "", 1⟩],
              history_index := 0 }
            "https://c.test" 2)) "t1"
        = Except.ok (none,
          (Browsers.empty.insert "t1"
            { tab_id := "t1", url := "https://a.test", title := "",
              is_loading := true, can_go_back := false, can_go_forward := true,
              history := [⟨"https://a.test", "", 0⟩, ⟨"https://b.test", "", 1⟩],
              history_index := 0 }).insert "t1"
            (CefBrowserInfo.applyUrlChange
              { tab_id := "t1", url := "https://a.test", title := "",
                is_loading := true, can_go_back := false, can_go_forward := true,
                history := [⟨"https://a.test", "", 0⟩, ⟨"https://b.test", "", 1⟩],
                history_index := 0 }
              "https://c.test" 2)) ∧
      (∀ moves : List Bool, ∃ b2,
        (navMoves "t1" moves
          ((Browsers.empty.insert "t1"
            { tab_id := "t1", url := "https://a.test", title := "",
              is_loading := true, can_go_back := false, can_go_forward := true,
              history := [⟨"https://a.test", "", 0⟩, ⟨"https://b.test", "", 1⟩],
              history_index := 0 }).insert "t1"
            (CefBrowserInfo.applyUrlChange
              { tab_id := "t1", url := "https://a.test", title := "",
                is_loading := true, can_go_back := false, can_go_forward := true,
                history := [⟨"https://a.test", "", 0⟩, ⟨"https://b.test", "", 1⟩],
                history_index := 0 }
              "https://c.test" 2))) "t1" = some b2 ∧
        b2.history = b'.history) := by
  have h := c1_url_change_truncates_and_appends
    (Browsers.empty.insert "t1"
      { tab_id := "t1", url := "https://a.test", title := "",
        is_loading := true, can_go_back := false, can_go_forward := true,
        history := [⟨"https://a.test", "", 0⟩, ⟨"https://b.test", "", 1⟩],
        history_index := 0 })
    "t1" "https://c.test" 2
    { tab_id := "t1", url := "https://a.test", title := "",
      is_loading := true, can_go_back := false, can_go_forward := true,
      history := [⟨"https://a.test", "", 0⟩, ⟨"https://b.test", "", 1⟩],
      history_index := 0 }
    _ rfl (by decide) rfl
  simpa using h

section BackForwardIterationLemmas

/-- `k` manager-level `goBack` calls act as `k` per-tab steps on the
registered tab. -/
theorem iterBack_lookup (tab_id : String) (k : Nat) :
    ∀ (m : Browsers) (b : CefBrowserInfo), m tab_id = some b →
    (iterBack tab_id k m) tab_id = some (backSteps k b) := by
  induction k with
  | zero => exact fun m b hb => hb
  | succ k ih =>
      intro m b hb
      show (goBackState (iterBack tab_id k m) tab_id) tab_id = _
      rw [goBackState_lookup _ _ _ (ih m b hb)]
      exact Browsers.insert_self _ _ _

/-- `k` manager-level `goForward` calls act as `k` per-tab steps on the
registered tab. -/
theorem iterForward_lookup (tab_id : String) (k : Nat) :
    ∀ (m : Browsers) (b : CefBrowserInfo), m tab_id = some b →
    (iterForward tab_id k m) tab_id = some (fwdSteps k b) := by
  induction k with
  | zero => exact fun m b hb => hb
  | succ k ih =>
      intro m b hb
      show (goForwardState (iterForward tab_id k m) tab_id) tab_id = _
      rw [goForwardState_lookup _ _ _ (ih m b hb)]
      exact Browsers.insert_self _ _ _

/-- Characterisation of `k ≤ historyIndex` successive `goBack` steps:
history untouched, cursor moved down by `k`, invariants preserved. -/
theorem backSteps_spec (b : CefBrowserInfo) (hwf : BrowserWf b) :
    ∀ k, k ≤ b.history_index →
      (backSteps k b).history = b.history ∧
      (backSteps k b).history_index = b.history_index - k ∧
      BrowserWf (backSteps k b) := by
  intro k
  induction k with
  | zero => exact fun _ => ⟨rfl, rfl, hwf⟩
  | succ k ih =>
      intro hk
      obtain ⟨hh, hi, hw⟩ := ih (by omega)
      have hpos : 0 < (backSteps k b).history_index := by
        rw [hi]; omega
      have hsnd : backSteps (k + 1) b = (backSteps k b).applyGoBack.2 := rfl
      refine ⟨?_, ?_, ?_⟩
      · rw [hsnd, applyGoBack_history, hh]
      · obtain ⟨e, he, hspec⟩ :=
          applyGoBack_spec (backSteps k b) hw.2.1 hpos
        rw [hsnd, congrArg Prod.snd hspec]
        dsimp only
        omega
      · rw [hsnd]
        exact wf_applyGoBack _ hw

/-- Characterisation of successive `goForward` steps while the cursor can
still move up: history untouched, cursor moved up, invariants
preserved. -/
theorem fwdSteps_spec (s : CefBrowserInfo) (hwf : BrowserWf s) :
    ∀ j, j + s.history_index ≤ s.history.length - 1 →
      (fwdSteps j s).history = s.history ∧
      (fwdSteps j s).history_index = s.history_index + j ∧
      BrowserWf (fwdSteps j s) := by
  intro j
  induction j with
  | zero => exact fun _ => ⟨rfl, rfl, hwf⟩
  | succ j ih =>
      intro hj
      obtain ⟨hh, hi, hw⟩ := ih (by omega)
      have hlt : (fwdSteps j s).history_index
          < (fwdSteps j s).history.length - 1 := by
        rw [hi, hh]
        have hidx : s.history_index < s.history.length := hwf.2.1
        omega
      have hsnd : fwdSteps (j + 1) s = (fwdSteps j s).applyGoForward.2 := rfl
      refine ⟨?_, ?_, ?_⟩
      · rw [hsnd, applyGoForward_history, hh]
      · obtain ⟨e, he, hspec⟩ := applyGoForward_spec (fwdSteps j s) hlt
        rw [hsnd, congrArg Prod.snd hspec]
        dsimp only
        omega
      · rw [hsnd]
        exact wf_applyGoForward _ hw

end BackForwardIterationLemmas

/-- C5: for a registered, invariant-satisfying tab whose cursor sits at
the last history index `n`, and any `0 < k ≤ n`, `k` `goBack` calls
followed by `k` `goForward` calls restore the cursor to `n` and
`currentUrl` to its original value, and every intermediate call returns
exactly the URL of the entry the cursor lands on. -/
theorem c5_back_forward_inverse (m : Browsers) (tab_id : String)
    (b : CefBrowserInfo) (hb : m tab_id = some b) (hwf : BrowserWf b)
    (hlast : b.history_index = b.history.length - 1)
    (k : Nat) (hk0 : 0 < k) (hk : k ≤ b.history_index) :
    (∃ bf, (iterForward tab_id k (iterBack tab_id k m)) tab_id = some bf ∧
      bf.history_index = b.history_index ∧ bf.url = b.url) ∧
    (∀ j, j < k → ∃ u m2,
      CefBrowserManager.on_go_back (iterBack tab_id j m) tab_id
        = Except.ok (some u, m2) ∧
      (b.history[b.history_index - j - 1]?).map (·.url) = some u) ∧
    (∀ j, j < k → ∃ u m2,
      CefBrowserManager.on_go_forward
          (iterForward tab_id j (iterBack tab_id k m)) tab_id
        = Except.ok (some u, m2) ∧
      (b.history[b.history_index - k + j + 1]?).map (·.url) = some u) := by
  have hidx : b.history_index < b.history.length := hwf.2.1
  obtain ⟨hkh, hki, hkw⟩ := backSteps_spec b hwf k hk
  have hmk : (iterBack tab_id k m) tab_id = some (backSteps k b) :=
    iterBack_lookup tab_id k m b hb
  refine ⟨?_, ?_, ?_⟩
  · obtain ⟨hfh, hfi, hfw⟩ := fwdSteps_spec (backSteps k b) hkw k
      (by rw [hki, hkh]; omega)
    refine ⟨fwdSteps k (backSteps k b),
      iterForward_lookup tab_id k _ _ hmk, ?_, ?_⟩
    · rw [hfi, hki]
      omega
    · have hwfin := hfw.2.2.2.2
      rw [hfh, hkh] at hwfin
      have hidxfin : (fwdSteps k (backSteps k b)).history_index
          = b.history_index := by
        rw [hfi, hki]; omega
      rw [hidxfin] at hwfin
      have horig := hwf.2.2.2.2
      rw [horig] at hwfin
      exact (Option.some.inj hwfin).symm
  · intro j hj
    obtain ⟨hjh, hji, hjw⟩ := backSteps_spec b hwf j (by omega)
    have hmj : (iterBack tab_id j m) tab_id = some (backSteps j b) :=
      iterBack_lookup tab_id j m b hb
    have hpos : 0 < (backSteps j b).history_index := by
      rw [hji]; omega
    obtain ⟨e, he, hspec⟩ := applyGoBack_spec (backSteps j b) hjw.2.1 hpos
    refine ⟨e.url,
      (iterBack tab_id j m).insert tab_id (backSteps j b).applyGoBack.2,
      ?_, ?_⟩
    · unfold CefBrowserManager.on_go_back
      rw [hmj]
      dsimp only
      rw [congrArg Prod.fst hspec]
    · rw [hjh, hji] at he
      rw [he]
      rfl
  · intro j hj
    obtain ⟨hfh, hfi, hfw⟩ := fwdSteps_spec (backSteps k b) hkw j
      (by rw [hki, hkh]; omega)
    have hmfj : (iterForward tab_id j (iterBack tab_id k m)) tab_id
        = some (fwdSteps j (backSteps k b)) :=
      iterForward_lookup tab_id j _ _ hmk
    have hlt : (fwdSteps j (backSteps k b)).history_index
        < (fwdSteps j (backSteps k b)).history.length - 1 := by
      rw [hfi, hki, hfh, hkh]
      omega
    obtain ⟨e, he, hspec⟩ := applyGoForward_spec _ hlt
    refine ⟨e.url,
      (iterForward tab_id j (iterBack tab_id k m)).insert tab_id
        (fwdSteps j (backSteps k b)).applyGoForward.2,
      ?_, ?_⟩
    · unfold CefBrowserManager.on_go_forward
      rw [hmfj]
      dsimp only
      rw [congrArg Prod.fst hspec]
    · rw [hfh, hkh, hfi, hki] at he
      rw [he]
      rfl

/-- Witness for C5: a tab at history `[a, b]` with the cursor at 1 — one
`goBack` followed by one `goForward` restores cursor 1 and the original
URL. -/
theorem c5_back_forward_inverse_witness :
    ∃ bf, (iterForward "t1" 1 (iterBack "t1" 1
        (Browsers.empty.insert "t1"
          { tab_id := "t1", url := "https://b.test", title := "",
            is_loading := true, can_go_back := true, can_go_forward := false,
            history := [⟨"https://a.test", "", 0⟩, ⟨"https://b.test", "", 1⟩],
            history_index := 1 }))) "t1" = some bf ∧
      bf.history_index = 1 ∧ bf.url = "https://b.test" := by
  obtain ⟨⟨bf, hbf, hidx, hurl⟩, -, -⟩ := c5_back_forward_inverse
    (Browsers.empty.insert "t1"
      { tab_id := "t1", url := "https://b.test", title := "",
        is_loading := true, can_go_back := true, can_go_forward := false,
        history := [⟨"https://a.test", "", 0⟩, ⟨"https://b.test", "", 1⟩],
        history_index := 1 })
    "t1"
    { tab_id := "t1", url := "https://b.test", title := "",
      is_loading := true, can_go_back := true, can_go_forward := false,
      history := [⟨"https://a.test", "", 0⟩, ⟨"https://b.test", "", 1⟩],
      history_index := 1 }
    rfl (by decide) (by decide) 1 (by decide) (by decide)
  exact ⟨bf, hbf, hidx, hurl⟩
